import Mathlib

/-
  Shallow embedding of src/apps/web/hooks/useAudioRec.ts (useAudioRecorder).

  The hook is single-threaded and callback-driven.  We embed it as a pure
  state machine over a `World` record that carries:
    * the React state (`AudioRecorderState`: status, recordingTime,
      recordingBlob, blobUrl, error),
    * the refs (mediaRecorderRef, mediaStreamRef, chunksRef,
      timerIntervalRef as a Bool `timerOn`, mimeTypeRef),
    * environment bookkeeping needed to observe resource behaviour:
      pending getUserMedia requests, fresh stream/URL counters, the list of
      issued and revoked object URLs, and the set of streams whose hardware
      tracks have been stopped.

  Browser collaborators are modelled minimally and faithfully:
    * `URL.createObjectURL` issues a fresh handle (a Nat) and records it;
    * `URL.revokeObjectURL` records the handle as revoked;
    * `track.stop()` on an already-ended track is a no-op, so stopping the
      tracks of a stream is modelled as idempotent insertion of the stream
      id into `stoppedStreams`;
    * `getBestSupportedMimeType` (external collaborator, out of scope per
      the hook's imports) is a fixed identifier `bestMime`; each call is
      counted in `fmtCalls`;
    * a `MediaRecorder` is its stream id plus its `state` field
      (inactive / recording / paused).

  Asynchrony is linearised into an explicit event list: user operations
  (`startRecording`, `stopRecording`, `togglePauseResume`, `reset`),
  device-request resolutions (grant / deny), `dataavailable` deliveries,
  and 1-second timer ticks.  The `stop`/`pause` DOM events are run at the
  point the corresponding recorder method is invoked, which matches the
  spec's ordering guarantee that stop finalisation runs only after the
  encoder delivers no further fragments.
-/

set_option maxRecDepth 100000

namespace AudioRec

/-- The `status` field of `AudioRecorderState`. -/
inductive Status where
  | idle
  | recording
  | paused
  | stopped
  deriving DecidableEq, Repr

/-- The `state` field of a browser `MediaRecorder`. -/
inductive RState where
  | inactive
  | recording
  | paused
  deriving DecidableEq, Repr

/-- One captured fragment (a chunk delivered by `dataavailable`),
identified with its byte contents. -/
abbrev Frag := List Nat

/-- A `Blob` built by `new Blob(parts, { type })`: the list of parts and the
MIME type tag. -/
structure Blob where
  parts : List Frag
  btype : String
  deriving DecidableEq, Repr

/-- `Blob.size` in the browser: total byte length of the parts. -/
def Blob.size (b : Blob) : Nat :=
  (b.parts.map List.length).sum

/-- A `MediaRecorder`: the id of the stream it was constructed over and its
`state` field. -/
structure Recorder where
  streamId : Nat
  rstate : RState
  deriving DecidableEq, Repr

/-- The whole observable world: React state, the hook's refs, and the
browser-environment bookkeeping described at the top of the file. -/
structure World where
  status : Status
  recordingTime : Nat
  recordingBlob : Option Blob
  blobUrl : Option Nat
  error : Option String
  mediaRecorder : Option Recorder
  mediaStream : Option Nat
  chunks : List Frag
  timerOn : Bool
  mimeType : Option String
  pending : Nat
  nextStream : Nat
  nextUrl : Nat
  issuedUrls : List Nat
  revokedUrls : List Nat
  stoppedStreams : List Nat
  fmtCalls : Nat
  deriving DecidableEq, Repr

/-- Fresh mount of the hook: `INITIAL_STATE` with all refs null and a clean
environment. -/
def initWorld : World where
  status := .idle
  recordingTime := 0
  recordingBlob := none
  blobUrl := none
  error := none
  mediaRecorder := none
  mediaStream := none
  chunks := []
  timerOn := false
  mimeType := none
  pending := 0
  nextStream := 0
  nextUrl := 0
  issuedUrls := []
  revokedUrls := []
  stoppedStreams := []
  fmtCalls := 0

/-- `_clearTimer` (lines 52-56): if no interval is set, return; otherwise
clear it.  It does NOT touch `recordingTime`. -/
def clearTimer (w : World) : World :=
  if w.timerOn then { w with timerOn := false } else w

/-- `_startTimer` (lines 59-67): clear any running interval, then install a
1-second interval that increments `recordingTime` (the increments
themselves are the `tick` events below). -/
def startTimer (w : World) : World :=
  { clearTimer w with timerOn := true }

/-- `_cleanTracks` (lines 69-72): a null recorder is a no-op; otherwise
every track of the recorder's stream is stopped (`track.stop()` on an
already-ended track is itself a no-op, hence the idempotent insert). -/
def cleanTracks (r : Option Recorder) (w : World) : World :=
  match r with
  | none => w
  | some rc =>
      if rc.streamId ∈ w.stoppedStreams then w
      else { w with stoppedStreams := rc.streamId :: w.stoppedStreams }

/-- `reset` (lines 75-81): `setState(INITIAL_STATE)`, null out
`mediaRecorderRef`, `mediaStreamRef`, `chunksRef`, and `_clearTimer()`.
Note faithfully kept from the source: it does NOT call `_cleanTracks`, it
does NOT clear `mimeTypeRef`, and it cannot cancel a pending
`getUserMedia` request. -/
def reset (w : World) : World :=
  { w with
    status := .idle
    recordingTime := 0
    recordingBlob := none
    blobUrl := none
    error := none
    mediaRecorder := none
    mediaStream := none
    chunks := []
    timerOn := false }

/-- The identifier returned by the external collaborator
`getBestSupportedMimeType` (imported from `@/hooks/audioConst`, outside
this repository's core). -/
def bestMime : String := "audio/opus-webm"

/-- The value of the non-null assertion `mimeTypeRef.current!` when the ref
is still null. -/
def noMime : String := ""

/-- The `dataavailable` listener body (lines 107-116): push the chunk onto
`chunksRef` iff its size is positive. -/
def dataAvailable (f : Frag) (w : World) : World :=
  if f.length > 0 then { w with chunks := w.chunks ++ [f] } else w

/-- The `stop` listener body (lines 118-135): build a Blob from all of
`chunksRef` tagged with `mimeTypeRef`, create an object URL for it,
`_clearTimer`, set status `stopped` with the new blob and URL, then
`_cleanTracks(recorder)`.  Note faithfully kept from the source: the
previously issued `blobUrl` (if any) is overwritten WITHOUT being
revoked. -/
def stopEvent (rc : Recorder) (w : World) : World :=
  let b : Blob := { parts := w.chunks, btype := w.mimeType.getD noMime }
  let url := w.nextUrl
  let w1 := { w with nextUrl := url + 1, issuedUrls := w.issuedUrls ++ [url] }
  let w2 := clearTimer w1
  let w3 := { w2 with status := .stopped, recordingBlob := some b, blobUrl := some url }
  cleanTracks (some rc) w3

/-- The `pause` listener body (lines 137-162): build a Blob from all of
`chunksRef` tagged with `mimeTypeRef`, create an object URL, `_clearTimer`,
set status `paused` with the new blob and URL.  (The `resume` listener it
registers only sets status back to `recording`; that is run in the resume
branch of `togglePauseResume`.) -/
def pauseEvent (w : World) : World :=
  let b : Blob := { parts := w.chunks, btype := w.mimeType.getD noMime }
  let url := w.nextUrl
  let w1 := { w with nextUrl := url + 1, issuedUrls := w.issuedUrls ++ [url] }
  let w2 := clearTimer w1
  { w2 with status := .paused, recordingBlob := some b, blobUrl := some url }

/-- The `getUserMedia` then-callback (lines 94-172), exactly as written —
with NO guard against the session having moved on: store the granted
stream, call `getBestSupportedMimeType` and store it, construct a
`MediaRecorder` over the stream and store it, `recorder.start(timeslice)`,
`_startTimer()`, and set status `recording` with `recordingBlob := null`
(the then-callback's `setState` does not touch `blobUrl`). -/
def thenCallback (w : World) : World :=
  let sid := w.nextStream
  let w1 := { w with mediaStream := some sid, nextStream := sid + 1 }
  let w2 := { w1 with mimeType := some bestMime, fmtCalls := w1.fmtCalls + 1 }
  let w3 := { w2 with mediaRecorder := some { streamId := sid, rstate := RState.recording } }
  let w4 := startTimer w3
  { w4 with status := .recording, recordingBlob := none }

/-- `startRecording` (lines 83-173): `reset()` first, then issue the
(asynchronous) `getUserMedia` device request.  The then-callback runs
later, when the request resolves. -/
def startRecording (w : World) : World :=
  let w1 := reset w
  { w1 with pending := w1.pending + 1 }

/-- A pending device request resolves with a granted stream: the
then-callback runs unconditionally. -/
def resolveGrant (w : World) : World :=
  if w.pending > 0 then thenCallback { w with pending := w.pending - 1 } else w

/-- A pending device request rejects.  The promise chain in the source has
NO `.catch` handler, so the rejection is unhandled: no state field (in
particular not `error`) is written. -/
def resolveDeny (w : World) : World :=
  if w.pending > 0 then { w with pending := w.pending - 1 } else w

/-- `stopRecording` (lines 176-185): return if `mediaRecorderRef` is null
or its recorder is `inactive`; otherwise `_clearTimer()` and
`recorder.stop()`, whose `stop` event finalises the capture. -/
def stopRecording (w : World) : World :=
  match w.mediaRecorder with
  | none => w
  | some rc =>
      if rc.rstate = RState.inactive then w
      else
        let w1 := clearTimer w
        let rc1 : Recorder := { rc with rstate := RState.inactive }
        stopEvent rc1 { w1 with mediaRecorder := some rc1 }

/-- `togglePauseResume` (lines 187-205): return if `mediaRecorderRef` is
null or `inactive`.  If status is `paused`: `recorder.resume()` (the
`resume` listener sets status `recording`) and `_startTimer()`.  Otherwise
(pause): `_clearTimer()`, revoke the current `blobUrl` if one is set, and
`recorder.pause()`, whose `pause` event snapshots the interim blob. -/
def togglePauseResume (w : World) : World :=
  match w.mediaRecorder with
  | none => w
  | some rc =>
      if rc.rstate = RState.inactive then w
      else if w.status = Status.paused then
        let w1 := { w with
          mediaRecorder := some { rc with rstate := RState.recording }
          status := Status.recording }
        startTimer w1
      else
        let w1 := clearTimer w
        let w2 :=
          match w1.blobUrl with
          | some u => { w1 with revokedUrls := w1.revokedUrls ++ [u] }
          | none => w1
        pauseEvent { w2 with mediaRecorder := some { rc with rstate := RState.paused } }

/-- One second of wall-clock time: the interval callback (lines 61-66)
fires iff the interval is installed, incrementing `recordingTime` by 1. -/
def tick (w : World) : World :=
  if w.timerOn then { w with recordingTime := w.recordingTime + 1 } else w

/-- The events that can reach the hook: the four public operations, the two
device-request resolutions, a `dataavailable` delivery, and a timer
second. -/
inductive Ev where
  | start
  | grant
  | deny
  | dataEv (f : Frag)
  | stopCall
  | toggle
  | tick
  | resetCall
  deriving DecidableEq, Repr

/-- Event dispatch. -/
def step (w : World) : Ev → World
  | .start => startRecording w
  | .grant => resolveGrant w
  | .deny => resolveDeny w
  | .dataEv f => dataAvailable f w
  | .stopCall => stopRecording w
  | .toggle => togglePauseResume w
  | .tick => tick w
  | .resetCall => reset w

/-- Run a linearised event trace. -/
def run (es : List Ev) (w : World) : World :=
  es.foldl step w

/-- Events that may occur between a successful `start` and the final
`stop` of one session: pause/resume toggles, timer seconds, and fragment
deliveries. -/
def isMid (e : Ev) : Bool :=
  match e with
  | .toggle => true
  | .tick => true
  | .dataEv _ => true
  | _ => false

/-- The non-empty fragments among the `dataavailable` deliveries of a
trace, in arrival order. -/
def deliveredNonEmpty (es : List Ev) : List Frag :=
  match es with
  | [] => []
  | Ev.dataEv f :: rest =>
      if f.length > 0 then f :: deliveredNonEmpty rest else deliveredNonEmpty rest
  | _ :: rest => deliveredNonEmpty rest

/-- `stopRecording`/`togglePauseResume` guard condition: no recorder bound,
or the bound recorder is `inactive`. -/
def noActiveRecorder (w : World) : Bool :=
  match w.mediaRecorder with
  | none => true
  | some rc => rc.rstate == RState.inactive


/-- A recorder is bound and not `inactive` (the complement of the guard in
`stopRecording`/`togglePauseResume`). -/
def activeRec (w : World) : Prop :=
  ∃ rc : Recorder, w.mediaRecorder = some rc ∧ rc.rstate ≠ RState.inactive

theorem clearTimer_eq (w : World) : clearTimer w = { w with timerOn := false } := by
  unfold clearTimer
  split
  · rfl
  · rename_i h
    simp only [Bool.not_eq_true] at h
    cases w
    simp_all

theorem startTimer_eq (w : World) : startTimer w = { w with timerOn := true } := by
  unfold startTimer
  rw [clearTimer_eq]

theorem cleanTracks_status (r : Option Recorder) (w : World) :
    (cleanTracks r w).status = w.status := by
  unfold cleanTracks
  split
  · rfl
  · split <;> rfl

theorem cleanTracks_recordingBlob (r : Option Recorder) (w : World) :
    (cleanTracks r w).recordingBlob = w.recordingBlob := by
  unfold cleanTracks
  split
  · rfl
  · split <;> rfl

theorem cleanTracks_chunks (r : Option Recorder) (w : World) :
    (cleanTracks r w).chunks = w.chunks := by
  unfold cleanTracks
  split
  · rfl
  · split <;> rfl

theorem cleanTracks_recordingTime (r : Option Recorder) (w : World) :
    (cleanTracks r w).recordingTime = w.recordingTime := by
  unfold cleanTracks
  split
  · rfl
  · split <;> rfl

theorem cleanTracks_mimeType (r : Option Recorder) (w : World) :
    (cleanTracks r w).mimeType = w.mimeType := by
  unfold cleanTracks
  split
  · rfl
  · split <;> rfl

theorem cleanTracks_fmtCalls (r : Option Recorder) (w : World) :
    (cleanTracks r w).fmtCalls = w.fmtCalls := by
  unfold cleanTracks
  split
  · rfl
  · split <;> rfl

theorem cleanTracks_timerOn (r : Option Recorder) (w : World) :
    (cleanTracks r w).timerOn = w.timerOn := by
  unfold cleanTracks
  split
  · rfl
  · split <;> rfl

theorem toggle_pres (w : World) :
    (togglePauseResume w).chunks = w.chunks ∧
    (togglePauseResume w).mimeType = w.mimeType ∧
    (togglePauseResume w).fmtCalls = w.fmtCalls := by
  unfold togglePauseResume
  split
  · exact ⟨rfl, rfl, rfl⟩
  · rename_i rc heq
    split
    · exact ⟨rfl, rfl, rfl⟩
    · split
      · simp [startTimer_eq]
      · simp only [pauseEvent, clearTimer_eq]
        split <;> simp

theorem tick_pres (w : World) :
    (tick w).chunks = w.chunks ∧
    (tick w).mimeType = w.mimeType ∧
    (tick w).fmtCalls = w.fmtCalls ∧
    (tick w).mediaRecorder = w.mediaRecorder := by
  unfold tick
  split <;> simp

theorem data_pres (f : Frag) (w : World) :
    (dataAvailable f w).chunks = w.chunks ++ (if f.length > 0 then [f] else []) ∧
    (dataAvailable f w).mimeType = w.mimeType ∧
    (dataAvailable f w).fmtCalls = w.fmtCalls ∧
    (dataAvailable f w).mediaRecorder = w.mediaRecorder := by
  unfold dataAvailable
  split <;> simp_all

theorem pauseEvent_mediaRecorder (w : World) : (pauseEvent w).mediaRecorder = w.mediaRecorder := by
  simp only [pauseEvent, clearTimer_eq]

theorem toggle_activeRec (w : World) (h : activeRec w) : activeRec (togglePauseResume w) := by
  unfold togglePauseResume
  split
  · exact h
  · rename_i rc2 heq
    have ha : rc2.rstate ≠ RState.inactive := by
      obtain ⟨rc, hmr, ha⟩ := h
      rw [heq] at hmr
      injection hmr with hr
      exact hr ▸ ha
    split
    · exact h
    · split
      · refine ⟨{ rc2 with rstate := RState.recording }, ?_, by simp⟩
        rw [startTimer_eq]
      · refine ⟨{ rc2 with rstate := RState.paused }, ?_, by simp⟩
        rw [pauseEvent_mediaRecorder]

theorem run_nil (w : World) : run [] w = w := rfl

theorem run_cons (e : Ev) (es : List Ev) (w : World) :
    run (e :: es) w = run es (step w e) := rfl

theorem run_append (es fs : List Ev) (w : World) :
    run (es ++ fs) w = run fs (run es w) := by
  simp [run, List.foldl_append]

/-- Joint invariant over the events that may occur between a successful
`start` and the final `stop` of one session: `chunksRef` grows by exactly
the non-empty delivered fragments in arrival order, `mimeTypeRef` and the
number of collaborator calls are untouched, and the bound recorder stays
non-inactive. -/
theorem run_mid (es : List Ev) : ∀ w : World, (∀ e ∈ es, isMid e = true) →
    (run es w).chunks = w.chunks ++ deliveredNonEmpty es ∧
    (run es w).mimeType = w.mimeType ∧
    (run es w).fmtCalls = w.fmtCalls ∧
    (activeRec w → activeRec (run es w)) := by
  induction es with
  | nil =>
      intro w _
      simp [run, deliveredNonEmpty]
  | cons e es ih =>
      intro w h
      have he : isMid e = true := h e (by simp)
      have hrest : ∀ x ∈ es, isMid x = true := fun x hx => h x (by simp [hx])
      rw [run_cons]
      cases e with
      | toggle =>
          obtain ⟨t1, t2, t3⟩ := toggle_pres w
          obtain ⟨i1, i2, i3, i4⟩ := ih (step w Ev.toggle) hrest
          refine ⟨?_, ?_, ?_, ?_⟩
          · rw [i1]
            show (togglePauseResume w).chunks ++ _ = _
            rw [t1]
            simp [deliveredNonEmpty]
          · rw [i2]; exact t2
          · rw [i3]; exact t3
          · intro ha
            exact i4 (toggle_activeRec w ha)
      | tick =>
          obtain ⟨t1, t2, t3, t4⟩ := tick_pres w
          obtain ⟨i1, i2, i3, i4⟩ := ih (step w Ev.tick) hrest
          refine ⟨?_, ?_, ?_, ?_⟩
          · rw [i1]
            show (tick w).chunks ++ _ = _
            rw [t1]
            simp [deliveredNonEmpty]
          · rw [i2]; exact t2
          · rw [i3]; exact t3
          · intro ha
            refine i4 ?_
            obtain ⟨rc, hmr, hra⟩ := ha
            exact ⟨rc, by rw [show (step w Ev.tick).mediaRecorder = w.mediaRecorder from t4]; exact hmr, hra⟩
      | dataEv f =>
          obtain ⟨t1, t2, t3, t4⟩ := data_pres f w
          obtain ⟨i1, i2, i3, i4⟩ := ih (step w (Ev.dataEv f)) hrest
          refine ⟨?_, ?_, ?_, ?_⟩
          · rw [i1]
            show (dataAvailable f w).chunks ++ _ = _
            rw [t1]
            by_cases hf : f.length > 0
            · simp [deliveredNonEmpty, hf]
            · simp [deliveredNonEmpty, hf]
          · rw [i2]; exact t2
          · rw [i3]; exact t3
          · intro ha
            refine i4 ?_
            obtain ⟨rc, hmr, hra⟩ := ha
            exact ⟨rc, by rw [show (step w (Ev.dataEv f)).mediaRecorder = w.mediaRecorder from t4]; exact hmr, hra⟩
      | start => simp [isMid] at he
      | grant => simp [isMid] at he
      | deny => simp [isMid] at he
      | stopCall => simp [isMid] at he
      | resetCall => simp [isMid] at he

/-- What `stopRecording` does when a non-inactive recorder is bound: the
`stop` event finalises with a blob assembled from all of `chunksRef`,
tagged with `mimeTypeRef`, leaving `chunksRef`, `recordingTime`,
`mimeTypeRef` and the collaborator call count untouched. -/
theorem stopRecording_active (w : World) (rc : Recorder)
    (hmr : w.mediaRecorder = some rc) (ha : rc.rstate ≠ RState.inactive) :
    (stopRecording w).status = Status.stopped ∧
    (stopRecording w).recordingBlob = some { parts := w.chunks, btype := w.mimeType.getD noMime } ∧
    (stopRecording w).chunks = w.chunks ∧
    (stopRecording w).recordingTime = w.recordingTime ∧
    (stopRecording w).mimeType = w.mimeType ∧
    (stopRecording w).fmtCalls = w.fmtCalls := by
  unfold stopRecording
  split
  · rename_i heq
    rw [heq] at hmr
    exact absurd hmr (by simp)
  · rename_i rc2 heq
    have ha2 : rc2.rstate ≠ RState.inactive := by
      rw [heq] at hmr
      injection hmr with hr
      exact hr ▸ ha
    rw [if_neg ha2]
    simp only [stopEvent, clearTimer_eq]
    refine ⟨?_, ?_, ?_, ?_, ?_, ?_⟩
    · rw [cleanTracks_status]
    · rw [cleanTracks_recordingBlob]
    · rw [cleanTracks_chunks]
    · rw [cleanTracks_recordingTime]
    · rw [cleanTracks_mimeType]
    · rw [cleanTracks_fmtCalls]

theorem pauseEvent_status (w : World) : (pauseEvent w).status = Status.paused := by
  simp only [pauseEvent, clearTimer_eq]

theorem pauseEvent_timerOn (w : World) : (pauseEvent w).timerOn = false := by
  simp only [pauseEvent, clearTimer_eq]

theorem stopEvent_status (rc : Recorder) (w : World) :
    (stopEvent rc w).status = Status.stopped := by
  simp only [stopEvent, clearTimer_eq, cleanTracks_status]

theorem thenCallback_status (w : World) : (thenCallback w).status = Status.recording := by
  simp only [thenCallback, startTimer_eq]

/-- Transition invariant: whenever status is `paused` the timer interval is
cleared.  Every event preserves this (the `pause` listener calls
`_clearTimer` before setting status `paused`, and both paths that start the
timer set status `recording`). -/
theorem step_paused_timerOff (w : World) (e : Ev)
    (h : w.status = Status.paused → w.timerOn = false) :
    (step w e).status = Status.paused → (step w e).timerOn = false := by
  cases e with
  | start => intro _; rfl
  | grant =>
      show (resolveGrant w).status = Status.paused → (resolveGrant w).timerOn = false
      unfold resolveGrant
      split
      · rw [thenCallback_status]
        intro hs
        exact absurd hs (by simp)
      · exact h
  | deny =>
      show (resolveDeny w).status = Status.paused → (resolveDeny w).timerOn = false
      unfold resolveDeny
      split
      · exact h
      · exact h
  | dataEv f =>
      show (dataAvailable f w).status = Status.paused → (dataAvailable f w).timerOn = false
      unfold dataAvailable
      split
      · exact h
      · exact h
  | stopCall =>
      show (stopRecording w).status = Status.paused → (stopRecording w).timerOn = false
      unfold stopRecording
      split
      · exact h
      · split
        · exact h
        · rw [stopEvent_status]
          intro hs
          exact absurd hs (by simp)
  | toggle =>
      show (togglePauseResume w).status = Status.paused → (togglePauseResume w).timerOn = false
      unfold togglePauseResume
      split
      · exact h
      · split
        · exact h
        · split
          · rw [startTimer_eq]
            intro hs
            exact absurd hs (by simp)
          · intro _
            rw [pauseEvent_timerOn]
  | tick =>
      show (tick w).status = Status.paused → (tick w).timerOn = false
      unfold tick
      split
      · rename_i ht
        intro hs
        have h2 := h hs
        rw [h2] at ht
        exact absurd ht (by simp)
      · exact h
  | resetCall => intro _; rfl

/-- The invariant of `step_paused_timerOff`, carried along any trace: in
every reachable world, `paused` status implies the timer is cleared. -/
theorem run_paused_timerOff (es : List Ev) : ∀ w : World,
    (w.status = Status.paused → w.timerOn = false) →
    ((run es w).status = Status.paused → (run es w).timerOn = false) := by
  induction es with
  | nil => intro w h; exact h
  | cons e es ih => intro w h; exact ih (step w e) (step_paused_timerOff w e h)


theorem thenCallback_fields (w : World) :
    (thenCallback w).mimeType = some bestMime ∧
    (thenCallback w).fmtCalls = w.fmtCalls + 1 ∧
    (thenCallback w).mediaRecorder = some { streamId := w.nextStream, rstate := RState.recording } := by
  refine ⟨?_, ?_, ?_⟩ <;> simp only [thenCallback, startTimer_eq]

theorem toggle_resume_eq (w : World) (rc : Recorder) (hmr : w.mediaRecorder = some rc)
    (ha : rc.rstate ≠ RState.inactive) (hp : w.status = Status.paused) :
    togglePauseResume w = { w with
      mediaRecorder := some { rc with rstate := RState.recording }
      status := Status.recording
      timerOn := true } := by
  unfold togglePauseResume
  split
  · rename_i heq
    rw [heq] at hmr
    exact absurd hmr (by simp)
  · rename_i rc2 heq
    rw [heq] at hmr
    injection hmr with hr
    subst hr
    rw [if_neg ha, if_pos hp, startTimer_eq]

theorem toggle_pause_fields (w : World) (rc : Recorder) (hmr : w.mediaRecorder = some rc)
    (ha : rc.rstate ≠ RState.inactive) (hp : w.status ≠ Status.paused) :
    (togglePauseResume w).recordingTime = w.recordingTime ∧
    (togglePauseResume w).status = Status.paused ∧
    (togglePauseResume w).recordingBlob = some { parts := w.chunks, btype := w.mimeType.getD noMime } := by
  unfold togglePauseResume
  split
  · rename_i heq
    rw [heq] at hmr
    exact absurd hmr (by simp)
  · rename_i rc2 heq
    rw [heq] at hmr
    injection hmr with hr
    subst hr
    rw [if_neg ha, if_neg hp]
    refine ⟨?_, pauseEvent_status _, ?_⟩
    · simp only [pauseEvent, clearTimer_eq]
      split <;> rfl
    · simp only [pauseEvent, clearTimer_eq]
      split <;> rfl

/-- C1: for every execution `start` → device grant → any interleaving of
pause/resume toggles, timer seconds and fragment arrivals → `stop`, the
`chunksRef` sequence at stop time is exactly the concatenation, in arrival
order, of the non-empty delivered fragments (`dataavailable` pushes only
chunks of positive size), and the final blob is assembled from exactly
those fragments, so its byte size is the sum of their sizes; in the
concrete run with fragment sizes [120, 130, 0, 140] the final artifact is
390 bytes and status is `stopped`. -/
theorem C1_fragment_concatenation (mids : List Ev) (hm : ∀ e ∈ mids, isMid e = true) :
    ((run (Ev.start :: Ev.grant :: (mids ++ [Ev.stopCall])) initWorld).status = Status.stopped ∧
     (run (Ev.start :: Ev.grant :: (mids ++ [Ev.stopCall])) initWorld).chunks = deliveredNonEmpty mids ∧
     (run (Ev.start :: Ev.grant :: (mids ++ [Ev.stopCall])) initWorld).recordingBlob =
       some { parts := deliveredNonEmpty mids, btype := bestMime } ∧
     ((run (Ev.start :: Ev.grant :: (mids ++ [Ev.stopCall])) initWorld).recordingBlob.map Blob.size) =
       some ((deliveredNonEmpty mids).map List.length).sum) ∧
    ((run [Ev.start, Ev.grant, Ev.dataEv (List.replicate 120 0), Ev.dataEv (List.replicate 130 0),
           Ev.dataEv [], Ev.dataEv (List.replicate 140 0), Ev.stopCall] initWorld).status = Status.stopped ∧
     (run [Ev.start, Ev.grant, Ev.dataEv (List.replicate 120 0), Ev.dataEv (List.replicate 130 0),
           Ev.dataEv [], Ev.dataEv (List.replicate 140 0), Ev.stopCall] initWorld).recordingBlob.map Blob.size
       = some 390) := by
  have hsplit : run (Ev.start :: Ev.grant :: (mids ++ [Ev.stopCall])) initWorld
      = stopRecording (run mids (run [Ev.start, Ev.grant] initWorld)) := by
    rw [run_cons, run_cons, run_append, run_cons, run_nil]
    rfl
  have h1 : (run [Ev.start, Ev.grant] initWorld).chunks = [] := rfl
  have h2 : (run [Ev.start, Ev.grant] initWorld).mimeType = some bestMime := rfl
  have h3 : activeRec (run [Ev.start, Ev.grant] initWorld) :=
    ⟨{ streamId := 0, rstate := RState.recording }, rfl, by simp⟩
  obtain ⟨mc, mm, _, ma⟩ := run_mid mids (run [Ev.start, Ev.grant] initWorld) hm
  obtain ⟨rc, hmr, hra⟩ := ma h3
  obtain ⟨s1, s2, s3, _, _, _⟩ :=
    stopRecording_active (run mids (run [Ev.start, Ev.grant] initWorld)) rc hmr hra
  have hchunks : (run mids (run [Ev.start, Ev.grant] initWorld)).chunks = deliveredNonEmpty mids := by
    rw [mc, h1]
    simp
  have hmime : (run mids (run [Ev.start, Ev.grant] initWorld)).mimeType = some bestMime := by
    rw [mm, h2]
  constructor
  · refine ⟨?_, ?_, ?_, ?_⟩
    · rw [hsplit]
      exact s1
    · rw [hsplit, s3, hchunks]
    · rw [hsplit, s2, hchunks, hmime]
      rfl
    · rw [hsplit, s2, hchunks, hmime]
      simp [Blob.size]
  · exact ⟨by decide, by decide⟩

/-- Witness for C1 at the spec's concrete scenario: fragment sizes
[120, 130, 0, 140] produce a 390-byte artifact and status `stopped`. -/
theorem C1_fragment_concatenation_witness :
    (run [Ev.start, Ev.grant, Ev.dataEv (List.replicate 120 0), Ev.dataEv (List.replicate 130 0),
          Ev.dataEv [], Ev.dataEv (List.replicate 140 0), Ev.stopCall] initWorld).status = Status.stopped ∧
    (run [Ev.start, Ev.grant, Ev.dataEv (List.replicate 120 0), Ev.dataEv (List.replicate 130 0),
          Ev.dataEv [], Ev.dataEv (List.replicate 140 0), Ev.stopCall] initWorld).recordingBlob.map Blob.size
      = some 390 :=
  (C1_fragment_concatenation [Ev.dataEv (List.replicate 120 0), Ev.dataEv (List.replicate 130 0),
      Ev.dataEv [], Ev.dataEv (List.replicate 140 0)] (by decide)).2

/-- C2: evaluation at the failing input.  When the device request issued by
`start` is rejected, status stays `idle` and `chunksRef` stays empty, and a
later `start` can succeed — but `error` is NOT set: the `getUserMedia`
promise chain has no rejection handler, so `error` remains `none`,
contradicting the claim that `lastError` is set to the failure. -/
theorem C2_denial_leaves_error_unset :
    (run [Ev.start, Ev.deny] initWorld).status = Status.idle ∧
    (run [Ev.start, Ev.deny] initWorld).chunks = [] ∧
    (run [Ev.start, Ev.deny] initWorld).error = none ∧
    (run [Ev.start, Ev.deny, Ev.start, Ev.grant] initWorld).status = Status.recording := by
  decide

/-- C3: evaluation at the failing input.  A device resolution that is stale
(its session was abandoned by `reset`, or superseded by a second `start`)
is NOT ignored: the then-callback runs unguarded, installs the stale
stream's recorder, restarts the timer and flips status back to
`recording`; with two overlapping `start`s, the late resolution replaces
the current session's device handle (stream 0 becomes stream 1). -/
theorem C3_stale_resolution_clobbers :
    (run [Ev.start, Ev.resetCall] initWorld).status = Status.idle ∧
    (run [Ev.start, Ev.resetCall] initWorld).mediaRecorder = none ∧
    (run [Ev.start, Ev.resetCall, Ev.grant] initWorld).status = Status.recording ∧
    (run [Ev.start, Ev.resetCall, Ev.grant] initWorld).mediaStream = some 0 ∧
    (run [Ev.start, Ev.resetCall, Ev.grant] initWorld).timerOn = true ∧
    (run [Ev.start, Ev.start, Ev.grant] initWorld).mediaStream = some 0 ∧
    (run [Ev.start, Ev.start, Ev.grant, Ev.grant] initWorld).mediaStream = some 1 := by
  decide

/-- C4: evaluation at the failing input.  `reset` called while recording
nulls the recorder and stream refs WITHOUT calling `_cleanTracks`, so the
acquired stream's hardware tracks are never stopped (`stoppedStreams`
stays empty and the ref needed to stop them later is gone), contradicting
the claim that reset always releases the tracks.  The remaining parts of
the claim do hold: `stopRecording` does release the tracks, releasing an
already-released or never-acquired device is a no-op, and reset clears
state, refs, timer and error. -/
theorem C4_reset_leaks_tracks :
    (run [Ev.start, Ev.grant] initWorld).mediaStream = some 0 ∧
    (reset (run [Ev.start, Ev.grant] initWorld)).stoppedStreams = [] ∧
    (reset (run [Ev.start, Ev.grant] initWorld)).mediaRecorder = none ∧
    (reset (run [Ev.start, Ev.grant] initWorld)).mediaStream = none ∧
    (reset (run [Ev.start, Ev.grant] initWorld)).status = Status.idle ∧
    (reset (run [Ev.start, Ev.grant] initWorld)).chunks = [] ∧
    (reset (run [Ev.start, Ev.grant] initWorld)).recordingBlob = none ∧
    (reset (run [Ev.start, Ev.grant] initWorld)).blobUrl = none ∧
    (reset (run [Ev.start, Ev.grant] initWorld)).error = none ∧
    (reset (run [Ev.start, Ev.grant] initWorld)).timerOn = false ∧
    (run [Ev.start, Ev.grant, Ev.stopCall] initWorld).stoppedStreams = [0] ∧
    cleanTracks (run [Ev.start, Ev.grant, Ev.stopCall] initWorld).mediaRecorder
        (run [Ev.start, Ev.grant, Ev.stopCall] initWorld)
      = run [Ev.start, Ev.grant, Ev.stopCall] initWorld ∧
    cleanTracks none initWorld = initWorld := by
  decide

/-- C5: evaluation at the failing input.  In the run start → pause →
resume → stop, the interim handle (URL 0) issued at pause is never revoked
before the final handle (URL 1) is issued by the `stop` listener
(`revokedUrls` is empty although both handles were issued), contradicting
the claim; the pause path itself does revoke (a second pause revokes
URL 0). -/
theorem C5_stop_skips_revocation :
    (run [Ev.start, Ev.grant, Ev.toggle] initWorld).blobUrl = some 0 ∧
    (run [Ev.start, Ev.grant, Ev.toggle, Ev.toggle, Ev.stopCall] initWorld).blobUrl = some 1 ∧
    (run [Ev.start, Ev.grant, Ev.toggle, Ev.toggle, Ev.stopCall] initWorld).issuedUrls = [0, 1] ∧
    (run [Ev.start, Ev.grant, Ev.toggle, Ev.toggle, Ev.stopCall] initWorld).revokedUrls = [] ∧
    (run [Ev.start, Ev.grant, Ev.toggle, Ev.toggle, Ev.toggle] initWorld).revokedUrls = [0] ∧
    (run [Ev.start, Ev.grant, Ev.toggle, Ev.toggle, Ev.toggle] initWorld).blobUrl = some 1 := by
  decide

/-- C6: `reset` is idempotent (a second `reset` changes nothing), and
`stopRecording`/`togglePauseResume` invoked with no recorder bound or an
`inactive` recorder return before mutating anything, so they are exact
no-ops (and, being total functions, never throw). -/
theorem C6_idempotent_noops (w : World) (h : noActiveRecorder w = true) :
    reset (reset w) = reset w ∧ stopRecording w = w ∧ togglePauseResume w = w := by
  refine ⟨rfl, ?_, ?_⟩
  · unfold stopRecording
    split
    · rfl
    · rename_i rc heq
      unfold noActiveRecorder at h
      rw [heq] at h
      simp at h
      rw [if_pos h]
  · unfold togglePauseResume
    split
    · rfl
    · rename_i rc heq
      unfold noActiveRecorder at h
      rw [heq] at h
      simp at h
      rw [if_pos h]

/-- Witness for C6 at the world reached by start → grant → stop, whose
recorder is bound but `inactive`. -/
theorem C6_idempotent_noops_witness :
    noActiveRecorder (run [Ev.start, Ev.grant, Ev.stopCall] initWorld) = true ∧
    (reset (reset (run [Ev.start, Ev.grant, Ev.stopCall] initWorld))
        = reset (run [Ev.start, Ev.grant, Ev.stopCall] initWorld) ∧
     stopRecording (run [Ev.start, Ev.grant, Ev.stopCall] initWorld)
        = run [Ev.start, Ev.grant, Ev.stopCall] initWorld ∧
     togglePauseResume (run [Ev.start, Ev.grant, Ev.stopCall] initWorld)
        = run [Ev.start, Ev.grant, Ev.stopCall] initWorld) :=
  ⟨by decide, C6_idempotent_noops (run [Ev.start, Ev.grant, Ev.stopCall] initWorld) (by decide)⟩

/-- C7: while status is `paused` (where reachable worlds have the timer
cleared, by `run_paused_timerOff`) `recordingTime` is frozen under any
number of elapsed seconds; a resume toggle keeps the frozen value and the
very next second increments it by exactly 1; a pause toggle keeps the
value (it never zeroes it); only `reset` and `startRecording` zero it; and
`stopRecording` also keeps it. -/
theorem C7_elapsed_seconds (w : World) (rc : Recorder)
    (hmr : w.mediaRecorder = some rc) (ha : rc.rstate ≠ RState.inactive)
    (hinv : w.status = Status.paused → w.timerOn = false) :
    (w.status = Status.paused → ∀ n : Nat, tick^[n] w = w) ∧
    (w.status = Status.paused →
      (togglePauseResume w).recordingTime = w.recordingTime ∧
      (tick (togglePauseResume w)).recordingTime = w.recordingTime + 1) ∧
    (w.status ≠ Status.paused → (togglePauseResume w).recordingTime = w.recordingTime) ∧
    (stopRecording w).recordingTime = w.recordingTime ∧
    (reset w).recordingTime = 0 ∧
    (startRecording w).recordingTime = 0 := by
  refine ⟨?_, ?_, ?_, ?_, rfl, rfl⟩
  · intro hp n
    have hfix : tick w = w := by
      unfold tick
      rw [hinv hp]
      simp
    exact Function.iterate_fixed hfix n
  · intro hp
    rw [toggle_resume_eq w rc hmr ha hp]
    constructor
    · rfl
    · simp [tick]
  · intro hp
    exact (toggle_pause_fields w rc hmr ha hp).1
  · exact (stopRecording_active w rc hmr ha).2.2.2.1

/-- Witness for C7 at the paused world reached by start → grant → two
seconds → pause toggle. -/
theorem C7_elapsed_seconds_witness :
    (togglePauseResume (run [Ev.start, Ev.grant, Ev.tick, Ev.tick, Ev.toggle] initWorld)).recordingTime
        = (run [Ev.start, Ev.grant, Ev.tick, Ev.tick, Ev.toggle] initWorld).recordingTime ∧
    (tick (togglePauseResume (run [Ev.start, Ev.grant, Ev.tick, Ev.tick, Ev.toggle] initWorld))).recordingTime
        = (run [Ev.start, Ev.grant, Ev.tick, Ev.tick, Ev.toggle] initWorld).recordingTime + 1 :=
  (C7_elapsed_seconds (run [Ev.start, Ev.grant, Ev.tick, Ev.tick, Ev.toggle] initWorld)
      { streamId := 0, rstate := RState.paused } (by decide) (by decide) (by decide)).2.1 (by decide)

/-- C8: every artifact produced — by the `pause` listener and by the
`stop` listener — is recomputed from the full current `chunksRef`
concatenated in order and tagged with the stored MIME type, never patched
from the previous artifact (the two input worlds may hold different
previous blobs); two productions over equal fragment sequences and equal
formats yield equal artifacts, whether at pause or at stop. -/
theorem C8_deterministic_assembly (w1 w2 : World) (rc1 rc2 : Recorder)
    (hc : w1.chunks = w2.chunks) (hm : w1.mimeType = w2.mimeType) :
    (pauseEvent w1).recordingBlob = some { parts := w1.chunks, btype := w1.mimeType.getD noMime } ∧
    (stopEvent rc1 w1).recordingBlob = some { parts := w1.chunks, btype := w1.mimeType.getD noMime } ∧
    (pauseEvent w1).recordingBlob = (pauseEvent w2).recordingBlob ∧
    (pauseEvent w1).recordingBlob = (stopEvent rc2 w2).recordingBlob := by
  have hp1 : (pauseEvent w1).recordingBlob
      = some { parts := w1.chunks, btype := w1.mimeType.getD noMime } := by
    simp only [pauseEvent, clearTimer_eq]
  have hp2 : (pauseEvent w2).recordingBlob
      = some { parts := w2.chunks, btype := w2.mimeType.getD noMime } := by
    simp only [pauseEvent, clearTimer_eq]
  have hs1 : (stopEvent rc1 w1).recordingBlob
      = some { parts := w1.chunks, btype := w1.mimeType.getD noMime } := by
    simp only [stopEvent, clearTimer_eq, cleanTracks_recordingBlob]
  have hs2 : (stopEvent rc2 w2).recordingBlob
      = some { parts := w2.chunks, btype := w2.mimeType.getD noMime } := by
    simp only [stopEvent, clearTimer_eq, cleanTracks_recordingBlob]
  refine ⟨hp1, hs1, ?_, ?_⟩
  · rw [hp1, hp2, hc, hm]
  · rw [hp1, hs2, hc, hm]

/-- Witness for C8: at the world with one delivered fragment, the blob the
pause listener would assemble equals the one the stop listener would. -/
theorem C8_deterministic_assembly_witness :
    (pauseEvent (run [Ev.start, Ev.grant, Ev.dataEv [1, 2, 3]] initWorld)).recordingBlob
      = (stopEvent { streamId := 0, rstate := RState.recording }
          (run [Ev.start, Ev.grant, Ev.dataEv [1, 2, 3]] initWorld)).recordingBlob :=
  (C8_deterministic_assembly (run [Ev.start, Ev.grant, Ev.dataEv [1, 2, 3]] initWorld)
      (run [Ev.start, Ev.grant, Ev.dataEv [1, 2, 3]] initWorld)
      { streamId := 0, rstate := RState.recording }
      { streamId := 0, rstate := RState.recording } rfl rfl).2.2.2

/-- C9: a successful `start` calls the format-negotiation collaborator
exactly once (the call count rises by exactly 1) and stores its result;
across any following pause/resume toggles, seconds, fragment arrivals and
the final `stop`, neither the stored format nor the call count changes, so
the format at stop equals the one selected at start. -/
theorem C9_format_chosen_once (w : World) (mids : List Ev) (hm : ∀ e ∈ mids, isMid e = true) :
    (run [Ev.start, Ev.grant] w).mimeType = some bestMime ∧
    (run [Ev.start, Ev.grant] w).fmtCalls = w.fmtCalls + 1 ∧
    (run (mids ++ [Ev.stopCall]) (run [Ev.start, Ev.grant] w)).mimeType = some bestMime ∧
    (run (mids ++ [Ev.stopCall]) (run [Ev.start, Ev.grant] w)).fmtCalls = w.fmtCalls + 1 := by
  have hpos : 0 < (startRecording w).pending := Nat.succ_pos w.pending
  have hg : run [Ev.start, Ev.grant] w
      = thenCallback { startRecording w with pending := (startRecording w).pending - 1 } := by
    show resolveGrant (startRecording w) = _
    unfold resolveGrant
    rw [if_pos hpos]
  obtain ⟨t1, t2, t3⟩ :=
    thenCallback_fields { startRecording w with pending := (startRecording w).pending - 1 }
  have h1 : (run [Ev.start, Ev.grant] w).mimeType = some bestMime := by
    rw [hg, t1]
  have h2 : (run [Ev.start, Ev.grant] w).fmtCalls = w.fmtCalls + 1 := by
    rw [hg, t2]
    rfl
  have h3 : activeRec (run [Ev.start, Ev.grant] w) := by
    rw [hg]
    exact ⟨_, t3, by simp⟩
  obtain ⟨_, mm, mf, ma⟩ := run_mid mids (run [Ev.start, Ev.grant] w) hm
  obtain ⟨rc, hmr, hra⟩ := ma h3
  obtain ⟨_, _, _, _, s5, s6⟩ :=
    stopRecording_active (run mids (run [Ev.start, Ev.grant] w)) rc hmr hra
  have happ : run (mids ++ [Ev.stopCall]) (run [Ev.start, Ev.grant] w)
      = stopRecording (run mids (run [Ev.start, Ev.grant] w)) := by
    rw [run_append, run_cons, run_nil]
    rfl
  refine ⟨h1, h2, ?_, ?_⟩
  · rw [happ, s5, mm, h1]
  · rw [happ, s6, mf, h2]

/-- Witness for C9 with a pause/resume pair between start and stop. -/
theorem C9_format_chosen_once_witness :
    (run ([Ev.toggle, Ev.toggle] ++ [Ev.stopCall]) (run [Ev.start, Ev.grant] initWorld)).mimeType
      = some bestMime :=
  (C9_format_chosen_once initWorld [Ev.toggle, Ev.toggle] (by decide)).2.2.1

/-- C10: `startRecording` is accepted from any world whatsoever — there is
no status guard — and synchronously restores the full initial state
(status `idle`, zero time, empty fragments, null blob/handle/error, timer
cancelled, refs nulled) before issuing the device request; it equals
`reset` followed by registering one pending device request. -/
theorem C10_start_restores_initial (w : World) :
    (startRecording w).status = Status.idle ∧
    (startRecording w).recordingTime = 0 ∧
    (startRecording w).chunks = [] ∧
    (startRecording w).recordingBlob = none ∧
    (startRecording w).blobUrl = none ∧
    (startRecording w).error = none ∧
    (startRecording w).timerOn = false ∧
    (startRecording w).mediaRecorder = none ∧
    (startRecording w).mediaStream = none ∧
    (startRecording w).pending = w.pending + 1 ∧
    startRecording w = { reset w with pending := w.pending + 1 } :=
  ⟨rfl, rfl, rfl, rfl, rfl, rfl, rfl, rfl, rfl, rfl, rfl⟩

end AudioRec
